import Mathlib

/-!
Shallow embedding of the RIS / Retraction Watch matching pipeline
(`src/utils.py` and `src/app.py`) and verification of its specification.

Strings are modelled as Lean `String` (lists of characters); Python string
operations (`lower`, `strip`, `replace`, the regexes of `normalize_title`)
are given explicit executable definitions.  The regex classes `\w` and `\s`
are modelled over ASCII.  Missing values (`None` / NaN) are modelled with
`Option`; operations that can raise (pandas `KeyError`) return `Except`.
-/

namespace RWCheck

/-! ### Character classes (ASCII model of the Python regex classes) -/

/-- The uppercase/lowercase pairs of the ASCII alphabet. -/
def upperLowerMap : List (Char × Char) :=
  [('A', 'a'), ('B', 'b'), ('C', 'c'), ('D', 'd'), ('E', 'e'), ('F', 'f'),
   ('G', 'g'), ('H', 'h'), ('I', 'i'), ('J', 'j'), ('K', 'k'), ('L', 'l'),
   ('M', 'm'), ('N', 'n'), ('O', 'o'), ('P', 'p'), ('Q', 'q'), ('R', 'r'),
   ('S', 's'), ('T', 't'), ('U', 'u'), ('V', 'v'), ('W', 'w'), ('X', 'x'),
   ('Y', 'y'), ('Z', 'z')]

def upperChars : List Char := upperLowerMap.map Prod.fst

def lowerChars : List Char := "abcdefghijklmnopqrstuvwxyz".data

def digitChars : List Char := "0123456789".data

def isUpperC (c : Char) : Bool := upperChars.contains c

def isLowerC (c : Char) : Bool := lowerChars.contains c

def isDigitC (c : Char) : Bool := digitChars.contains c

/-- The regex class `\w` (word character), modelled over ASCII. -/
def isWordChar (c : Char) : Bool := isUpperC c || isLowerC c || isDigitC c || c == '_'

/-- The regex class `\s` / Python `str.strip` whitespace, modelled over ASCII. -/
def isPySpace (c : Char) : Bool :=
  c == ' ' || c == '\t' || c == '\n' || c == '\r' || c == '\x0b' || c == '\x0c'

/-- Python `str.lower`, one character (ASCII model). -/
def toLowerChar (c : Char) : Char :=
  match upperLowerMap.find? (fun p => p.1 == c) with
  | some p => p.2
  | none => c

/-- Python `str.lower` (ASCII model). -/
def pyLower (l : List Char) : List Char := l.map toLowerChar

/-- Python `str.strip`: drop leading whitespace. -/
def trimLeft (l : List Char) : List Char := l.dropWhile isPySpace

/-- Python `str.strip`: drop trailing whitespace. -/
def trimRight (l : List Char) : List Char := (l.reverse.dropWhile isPySpace).reverse

/-- Python `str.strip`. -/
def pyStrip (l : List Char) : List Char := trimRight (trimLeft l)

/-- Fuel-driven core of Python `str.replace` (replace every non-overlapping
occurrence, scanning left to right).  The fuel is an upper bound on the
length of the list, making the recursion structural. -/
def replaceAllFuel (pat repl : List Char) : Nat → List Char → List Char
  | 0, s => s
  | _ + 1, [] => []
  | fuel + 1, c :: s =>
    if !pat.isEmpty && pat.isPrefixOf (c :: s) then
      repl ++ replaceAllFuel pat repl fuel ((c :: s).drop pat.length)
    else
      c :: replaceAllFuel pat repl fuel s

/-- Python `str.replace pat repl` (replace all occurrences). -/
def replaceAll (pat repl s : List Char) : List Char := replaceAllFuel pat repl s.length s

/-- Whether `pat` occurs as a contiguous substring of `l`. -/
def containsSub (pat : List Char) : List Char → Bool
  | [] => pat.isEmpty
  | c :: s => pat.isPrefixOf (c :: s) || containsSub pat s

/-- Core of `re.sub(r"\s+", " ", ·)`: collapse every maximal run of
whitespace to a single space.  `prevSpace` records whether the previous
character was part of a whitespace run. -/
def collapseWsAux (prevSpace : Bool) : List Char → List Char
  | [] => []
  | c :: s =>
    if isPySpace c then
      if prevSpace then collapseWsAux true s else ' ' :: collapseWsAux true s
    else
      c :: collapseWsAux false s

/-- `re.sub(r"\s+", " ", ·)`. -/
def collapseWs (l : List Char) : List Char := collapseWsAux false l

/-- `re.sub(r"[\/\-–—]", " ", ·)`, one character. -/
def dashToSpace (c : Char) : Char :=
  if c = '/' ∨ c = '-' ∨ c = '–' ∨ c = '—' then ' ' else c

/-- The character set `[a-z0-9_ ]` of the claimed output alphabet of
`normalize_title`. -/
def allowedTitleChar (c : Char) : Bool :=
  isLowerC c || isDigitC c || c == '_' || c == ' '

/-! ### Token-set similarity (`rapidfuzz.fuzz.token_set_ratio`,
`rapidfuzz.process.extractOne`), modelled per its documented algorithm. -/

/-- Whitespace tokenization (Python `str.split()`): maximal non-space runs.
`cur` accumulates the current token in reverse. -/
def splitWsAux (cur : List Char) : List Char → List (List Char)
  | [] => if cur.isEmpty then [] else [cur.reverse]
  | c :: s =>
    if isPySpace c then
      if cur.isEmpty then splitWsAux [] s else cur.reverse :: splitWsAux [] s
    else
      splitWsAux (c :: cur) s

def splitWs (l : List Char) : List (List Char) := splitWsAux [] l

/-- Lexicographic (codepoint) order on token strings, as Python `sorted`. -/
def lexLe : List Char → List Char → Bool
  | [], _ => true
  | _ :: _, [] => false
  | a :: as, b :: bs => if a = b then lexLe as bs else decide (a < b)

def insertSorted (x : List Char) : List (List Char) → List (List Char)
  | [] => [x]
  | y :: ys => if lexLe x y then x :: y :: ys else y :: insertSorted x ys

def sortTokens : List (List Char) → List (List Char)
  | [] => []
  | x :: xs => insertSorted x (sortTokens xs)

/-- First-occurrence deduplication of a token list. -/
def dedupToksAux (seen : List (List Char)) : List (List Char) → List (List Char)
  | [] => []
  | t :: ts => if seen.contains t then dedupToksAux seen ts
               else t :: dedupToksAux (t :: seen) ts

/-- Sorted set of whitespace tokens of a string (`sorted(set(s.split()))`). -/
def sortedTokenSet (l : List Char) : List (List Char) :=
  dedupToksAux [] (sortTokens (splitWs l))

/-- Join tokens with single spaces (`" ".join`). -/
def joinSp (ts : List (List Char)) : List Char := List.intercalate [' '] ts

/-- Fuel-driven longest common subsequence length; fuel bounds the sum of
the lengths, making the recursion structural. -/
def lcsFuel : Nat → List Char → List Char → Nat
  | 0, _, _ => 0
  | _ + 1, [], _ => 0
  | _ + 1, _ :: _, [] => 0
  | n + 1, a :: as, b :: bs =>
    if a = b then 1 + lcsFuel n as bs
    else max (lcsFuel n (a :: as) bs) (lcsFuel n as (b :: bs))

def lcs (x y : List Char) : Nat := lcsFuel (x.length + y.length) x y

/-- Maximum of two rationals, by an explicit comparison. -/
def maxQ (a b : ℚ) : ℚ := if a ≤ b then b else a

/-- `fuzz.ratio`: normalized Indel similarity on the 0–100 scale.  The
Indel distance is `|x| + |y| - 2·lcs x y`, hence the similarity is
`2·lcs/(|x|+|y|)`; two empty strings score 100.  Scores are exact
rationals. -/
def ratioQ (x y : List Char) : ℚ :=
  if x.length + y.length = 0 then mkRat 100 1
  else mkRat (200 * (lcs x y : Int)) (x.length + y.length)

/-- `fuzz.token_set_ratio`: build the sorted intersection string and the
two intersection-plus-remainder strings, score the three pairings with
`fuzz.ratio` and take the maximum. -/
def token_set_ratio (a b : String) : ℚ :=
  let ta := sortedTokenSet a.data
  let tb := sortedTokenSet b.data
  let inter := ta.filter (fun t => tb.contains t)
  let diffAB := ta.filter (fun t => !tb.contains t)
  let diffBA := tb.filter (fun t => !ta.contains t)
  let t0 := joinSp inter
  let t1 := joinSp (inter ++ diffAB)
  let t2 := joinSp (inter ++ diffBA)
  maxQ (maxQ (ratioQ t0 t1) (ratioQ t0 t2)) (ratioQ t1 t2)

/-- `process.extractOne` accumulator: scan the choices left to right,
keeping the first choice attaining the best score at or above the cutoff. -/
def extractOneAux (q : String) (cutoff : ℚ) (best : Option (String × ℚ)) :
    List String → Option (String × ℚ)
  | [] => best
  | c :: cs =>
    let s := token_set_ratio q c
    match best with
    | none =>
      if cutoff ≤ s then extractOneAux q cutoff (some (c, s)) cs
      else extractOneAux q cutoff none cs
    | some (b, bs) =>
      if bs < s then extractOneAux q cutoff (some (c, s)) cs
      else extractOneAux q cutoff (some (b, bs)) cs

/-- `process.extractOne(q, choices, scorer=fuzz.token_set_ratio,
score_cutoff=cutoff)`. -/
def extractOne (q : String) (choices : List String) (cutoff : ℚ) :
    Option (String × ℚ) :=
  extractOneAux q cutoff none choices

/-! ### The normalizers and the title filter (`src/utils.py`) -/

/-- `BAD_TITLES` from `src/utils.py`. -/
def BAD_TITLES : List String :=
  ["editorial", "index", "correction", "corrigendum", "erratum",
   "reply", "response", "commentary", "letter", "news"]

/-- `normalize_doi` from `src/utils.py`.  A missing value (`None` / NaN)
is `none`.  Python `str.replace` removes every occurrence of the pattern,
not only a leading prefix. -/
def normalize_doi (doi : Option String) : Option String :=
  match doi with
  | none => none
  | some s =>
    let d := pyStrip (pyLower s.data)
    if d = "".data ∨ d = "nan".data ∨ d = "none".data then none
    else
      let r := replaceAll "doi:".data []
        (replaceAll "http://dx.doi.org/".data []
          (replaceAll "http://doi.org/".data []
            (replaceAll "https://doi.org/".data [] d)))
      let r := pyStrip r
      if r = [] then none else some (String.mk r)

/-- `normalize_title` from `src/utils.py`: lowercase; replace `/`, `-`,
en-dash, em-dash with a space; collapse whitespace runs to one space;
strip remaining non-word, non-space characters; trim. -/
def normalize_title (title : Option String) : Option String :=
  match title with
  | none => none
  | some s =>
    let a := pyLower s.data
    let b := a.map dashToSpace
    let c := collapseWs b
    let d := c.filter (fun ch => isWordChar ch || isPySpace ch)
    some (String.mk (pyStrip d))

/-- `filter_bad_titles` from `src/utils.py` (title eligibility). -/
def filter_bad_titles (title_norm : Option String) (min_len : Nat) : Bool :=
  match title_norm with
  | none => false
  | some t =>
    if t = "" then false
    else if BAD_TITLES.contains t then false
    else if t.length < min_len then false
    else true

/-! ### Tabular data (the pandas fragment the pipeline uses)

A `DataFrame` is a list of column names together with rows of cells
aligned positionally with the columns.  A cell is `none` for a missing
value (NaN / `None`); operations that raise in pandas (`KeyError` on a
missing column, concatenation of unequal schemas) return `Except`. -/

/-- A cell value: string, number (similarity score) or boolean. -/
inductive Cell where
  | str (s : String)
  | num (q : ℚ)
  | bool (b : Bool)
deriving DecidableEq

abbrev Row := List (Option Cell)

structure DataFrame where
  cols : List String
  rows : List Row
deriving DecidableEq

namespace DataFrame

/-- Index of a column, if present. -/
def colIdx (df : DataFrame) (name : String) : Option Nat :=
  df.cols.findIdx? (fun c => c = name)

/-- Cell of a row at a column index (missing for an out-of-range index). -/
def cellAt (r : Row) (i : Nat) : Option Cell := r.getD i none

/-- `df.dropna(subset=[key])`: raises `KeyError` when the column is
absent, otherwise keeps the rows whose `key` cell is present. -/
def dropna (df : DataFrame) (key : String) : Except String DataFrame :=
  match df.colIdx key with
  | none => .error ("KeyError: " ++ key)
  | some i => .ok ⟨df.cols, df.rows.filter (fun r => (cellAt r i).isSome)⟩

/-- Column renaming of `pd.merge`: shared non-key columns get a suffix. -/
def renameShared (cols other : List String) (key suf : String) : List String :=
  cols.map (fun c => if c ≠ key ∧ other.contains c then c ++ suf else c)

/-- `left.merge(right, on=key, how="inner", suffixes=(sufL, sufR))`:
one output row per pair of rows agreeing on the key; the key column is
kept once (from the left), shared columns are suffixed. -/
def merge (l r : DataFrame) (key sufL sufR : String) : Except String DataFrame :=
  match l.colIdx key, r.colIdx key with
  | some i, some j =>
    .ok ⟨renameShared l.cols r.cols key sufL ++
           renameShared (r.cols.eraseIdx j) l.cols key sufR,
         (l.rows.map (fun lr =>
           (r.rows.filter (fun rr => cellAt rr j = cellAt lr i)).map
             (fun rr => lr ++ rr.eraseIdx j))).flatten⟩
  | _, _ => .error ("KeyError: " ++ key)

/-- `df[col] = value` for a fresh column / `df.assign(col=value)`. -/
def assign (df : DataFrame) (col : String) (v : Cell) : DataFrame :=
  ⟨df.cols ++ [col], df.rows.map (fun r => r ++ [some v])⟩

/-- First-occurrence deduplication of rows by a projection (`keyOf`),
with an accumulator of the projections already seen. -/
def dedupByAux (keyOf : Row → List (Option Cell)) (seen : List (List (Option Cell))) :
    List Row → List Row
  | [] => []
  | r :: rs =>
    if seen.contains (keyOf r) then dedupByAux keyOf seen rs
    else r :: dedupByAux keyOf (keyOf r :: seen) rs

/-- `df.drop_duplicates(subset=names)` (keep the first occurrence). -/
def dropDupSubset (df : DataFrame) (names : List String) : DataFrame :=
  let idxs := names.filterMap df.colIdx
  ⟨df.cols, dedupByAux (fun r => idxs.map (cellAt r)) [] df.rows⟩

/-- `df.drop_duplicates()` (all columns, keep the first occurrence). -/
def dropDupFull (df : DataFrame) : DataFrame :=
  ⟨df.cols, dedupByAux (fun r => r) [] df.rows⟩

/-- `df[df[col]]`: boolean-mask selection on a boolean column. -/
def maskTrue (df : DataFrame) (col : String) : Except String DataFrame :=
  match df.colIdx col with
  | none => .error ("KeyError: " ++ col)
  | some i => .ok ⟨df.cols, df.rows.filter (fun r => cellAt r i = some (.bool true))⟩

/-- `pd.concat([a, b], ignore_index=True)` for frames sharing a schema
(the only case the application produces). -/
def concatRows (a b : DataFrame) : Except String DataFrame :=
  if a.cols = b.cols then .ok ⟨a.cols, a.rows ++ b.rows⟩
  else .error "concat: differing columns"

/-- `df[names]`: column projection. -/
def selectCols (df : DataFrame) (names : List String) : Except String DataFrame :=
  match names.mapM df.colIdx with
  | none => .error "KeyError: column selection"
  | some idxs => .ok ⟨names, df.rows.map (fun r => idxs.map (cellAt r))⟩

end DataFrame

/-- Python `str(·)` on a cell (`astype(str)`). -/
def cellToStr : Cell → String
  | .str s => s
  | .num q => toString q
  | .bool b => if b then "True" else "False"

/-- First-occurrence deduplication of a string list (pandas `unique`). -/
def dedupStrAux (seen : List String) : List String → List String
  | [] => []
  | s :: rest =>
    if seen.contains s then dedupStrAux seen rest
    else s :: dedupStrAux (s :: seen) rest

/-! ### The three matchers (`src/utils.py`) -/

open DataFrame in
/-- `match_by_doi` from `src/utils.py`: drop rows with a missing `key`
cell on either side, inner-join on `key`, tag with `match_type = "doi"`.
The commented-out deduplication of the source is absent. -/
def match_by_doi (review_df rw_df : DataFrame) (key : String) :
    Except String DataFrame :=
  match review_df.dropna key with
  | .error e => .error e
  | .ok left =>
    match rw_df.dropna key with
    | .error e => .error e
    | .ok right =>
      match merge left right key "_ris" "_rw" with
      | .error e => .error e
      | .ok matched => .ok (matched.assign "match_type" (.str "doi"))

open DataFrame in
/-- `match_by_title_exact` from `src/utils.py`: like `match_by_doi`, but
when a `"Record ID"` column is present the merged result is deduplicated
by `(key, "Record ID")`; tag `match_type = "title_exact"`. -/
def match_by_title_exact (review_df rw_df : DataFrame) (key : String) :
    Except String DataFrame :=
  match review_df.dropna key with
  | .error e => .error e
  | .ok left =>
    match rw_df.dropna key with
    | .error e => .error e
    | .ok right =>
      match merge left right key "_ris" "_rw" with
      | .error e => .error e
      | .ok matched =>
        let deduped :=
          if matched.cols.contains "Record ID" then
            matched.dropDupSubset [key, "Record ID"]
          else matched
        .ok (deduped.assign "match_type" (.str "title_exact"))

open DataFrame in
/-- `best_match` from `match_by_title_fuzzy`: strip the candidate title,
return the best-scoring reference title at or above the threshold. -/
def best_match (rw_titles : List String) (threshold : ℚ) (t : Option Cell) :
    Option Cell × Option Cell :=
  match t with
  | none => (none, none)
  | some c =>
    let s := String.mk (pyStrip (cellToStr c).data)
    if s = "" then (none, none)
    else
      match extractOne s rw_titles threshold with
      | none => (none, none)
      | some (m, sc) => (some (.str m), some (.num sc))

open DataFrame in
/-- `match_by_title_fuzzy` from `src/utils.py`: collect the distinct
non-missing reference titles, attach to every candidate row the best
match and its score (missing when no reference title reaches the
threshold or the candidate title is empty), keep the rows with a match,
tag `match_type = "title_fuzzy"`.

The two-column assignment
`df[["matched_title_norm", "title_score"]] = df[key].apply(...)` raises
`ValueError` when `df` has no rows: `Series.apply` over zero elements
returns an empty one-dimensional Series, which cannot be assigned to two
columns (pandas: "Columns must be same length as key").  On a non-empty
frame the apply yields one two-element row per candidate and the
assignment succeeds. -/
def match_by_title_fuzzy (review_df rw_df : DataFrame) (key : String)
    (threshold : ℚ) : Except String DataFrame :=
  match rw_df.colIdx key, review_df.colIdx key with
  | none, _ => .error ("KeyError: " ++ key)
  | some _, none => .error ("KeyError: " ++ key)
  | some j, some i =>
    let rw_titles :=
      dedupStrAux [] ((rw_df.rows.filterMap (fun r => cellAt r j)).map cellToStr)
    if review_df.rows.isEmpty then
      .error "ValueError: Columns must be same length as key"
    else
      let df : DataFrame :=
        ⟨review_df.cols ++ ["matched_title_norm", "title_score"],
         review_df.rows.map (fun r =>
           let bm := best_match rw_titles threshold (cellAt r i)
           r ++ [bm.1, bm.2])⟩
      (df.dropna "matched_title_norm").map
        (fun matched => matched.assign "match_type" (.str "title_fuzzy"))

/-! ### The application pipeline (`src/app.py`) -/

/-- `FUZZY_THRESHOLD` from `src/app.py`. -/
def FUZZY_THRESHOLD : ℚ := 95

/-- Columns produced by `_read_ris` for the uploaded candidate list. -/
def READ_RIS_COLS : List String :=
  ["doi", "primary_title", "doi_norm", "title_norm", "title_ok"]

/-- One candidate row as `_read_ris` builds it: raw fields plus the
normalized identifier, normalized title and eligibility flag. -/
def read_ris_row (doi primary_title : Option String) : Row :=
  [doi.map .str, primary_title.map .str,
   (normalize_doi doi).map .str,
   (normalize_title primary_title).map .str,
   some (.bool (filter_bad_titles (normalize_title primary_title) 10))]

/-- `_read_ris`: the uploaded records with normalization applied. -/
def read_ris (entries : List (Option String × Option String)) : DataFrame :=
  ⟨READ_RIS_COLS, entries.map (fun e => read_ris_row e.1 e.2)⟩

/-- Columns of the Retraction Watch frame after `get_retraction_watch`
and the `title_ok` assignment (metadata columns per the dataset schema). -/
def RW_DB_COLS : List String :=
  ["Record ID", "Title", "Author", "RetractionNature", "Reason",
   "OriginalPaperDOI", "urls", "doi_norm", "title_norm", "title_ok"]

/-- One Retraction Watch row (metadata cells left missing), with the
normalized identifier, normalized title and eligibility flag computed as
`get_retraction_watch` and `src/app.py` do. -/
def rw_db_row (recordId odoi title : Option String) : Row :=
  [recordId.map .str, title.map .str, none, none, none, odoi.map .str, none,
   (normalize_doi odoi).map .str,
   (normalize_title title).map .str,
   some (.bool (filter_bad_titles (normalize_title title) 10))]

def rw_db (entries : List (Option String × Option String × Option String)) :
    DataFrame :=
  ⟨RW_DB_COLS, entries.map (fun e => rw_db_row e.1 e.2.1 e.2.2)⟩

/-- `doi_matches` of `src/app.py`: `match_by_doi(review_df, rw_df)` with
the default key `"doi"` — the raw identifier column, not `doi_norm`. -/
def app_doi_matches (review_df rw_df : DataFrame) : Except String DataFrame :=
  match_by_doi review_df rw_df "doi"

/-- `exact_matches` of `src/app.py`: exact title matching on the frames
restricted to rows whose `title_ok` flag is set. -/
def app_exact_matches (review_df rw_df : DataFrame) : Except String DataFrame := do
  let l ← review_df.maskTrue "title_ok"
  let r ← rw_df.maskTrue "title_ok"
  match_by_title_exact l r "title_norm"

/-- `fuzzy_matches` of `src/app.py`: fuzzy title matching on the
`title_ok`-restricted frames when the toggle is on, otherwise an empty
frame. -/
def app_fuzzy_matches (review_df rw_df : DataFrame) (run_fuzzy : Bool) :
    Except String DataFrame :=
  if run_fuzzy then do
    let l ← review_df.maskTrue "title_ok"
    let r ← rw_df.maskTrue "title_ok"
    match_by_title_fuzzy l r "title_norm" FUZZY_THRESHOLD
  else .ok ⟨[], []⟩

/-- `rw_cols` of `src/app.py`: the columns kept for display and export. -/
def RW_COLS : List String :=
  ["Title", "primary_title", "Author", "RetractionNature", "Reason",
   "OriginalPaperDOI", "doi", "urls"]

/-- `combined` of `src/app.py`: the three per-strategy frames (already
projected to `rw_cols`), each tagged with its strategy, concatenated.
The commented-out subset deduplication of the source is absent. -/
def app_combined (rw_doi rw_exact rw_fuzzy : DataFrame) :
    Except String DataFrame :=
  match (rw_doi.assign "match_type" (.str "doi")).concatRows
      (rw_exact.assign "match_type" (.str "title_exact")) with
  | .error e => .error e
  | .ok ab => ab.concatRows (rw_fuzzy.assign "match_type" (.str "title_fuzzy"))

/-- `combined_unique` of `src/app.py` (the display view):
`combined.drop_duplicates()` over all columns. -/
def app_display (rw_doi rw_exact rw_fuzzy : DataFrame) :
    Except String DataFrame :=
  (app_combined rw_doi rw_exact rw_fuzzy).map DataFrame.dropDupFull

/-- The export (`combined.to_csv`): the un-deduplicated `combined`. -/
def app_export (rw_doi rw_exact rw_fuzzy : DataFrame) :
    Except String DataFrame :=
  app_combined rw_doi rw_exact rw_fuzzy

/-- The identifier normalization the claim describes: strip at most one
of the four prefixes, from the front only, leaving interior occurrences
intact. -/
def stripOneLeading (l : List Char) : List Char :=
  if "https://doi.org/".data.isPrefixOf l then l.drop 16
  else if "http://doi.org/".data.isPrefixOf l then l.drop 15
  else if "http://dx.doi.org/".data.isPrefixOf l then l.drop 18
  else if "doi:".data.isPrefixOf l then l.drop 4
  else l

/-- `normalizeIdentifier` as the claim words it (prefix stripping only). -/
def normalize_doi_claimC7 (doi : Option String) : Option String :=
  match doi with
  | none => none
  | some s =>
    let d := pyStrip (pyLower s.data)
    if d = "".data ∨ d = "nan".data ∨ d = "none".data then none
    else
      let r := pyStrip (stripOneLeading d)
      if r = [] then none else some (String.mk r)

/-! ### Concrete scenarios -/

/-- Candidate list with one record, raw identifier `"10.1/X"`. -/
def reviewIdEx : DataFrame := read_ris [(some "10.1/X", some "Some Study Title Here")]

/-- Reference database with one row, raw identifier
`"https://doi.org/10.1/x"`. -/
def rwIdEx : DataFrame :=
  rw_db [(some "R1", some "https://doi.org/10.1/x", some "Some Study Title Here")]

/-- One candidate, title `"The Effects of X on Y in Rats"`. -/
def reviewFuzzyEx : DataFrame := read_ris [(none, some "The Effects of X on Y in Rats")]

/-- One reference, title `"Effects of X on Y Rats"`. -/
def rwFuzzyEx : DataFrame := rw_db [(some "R1", none, some "Effects of X on Y Rats")]

/-- Two candidates sharing the eligible title `"Abcdefghijk"`. -/
def reviewDupTitleEx : DataFrame :=
  read_ris [(none, some "Abcdefghijk"), (none, some "Abcdefghijk")]

/-- One reference with the same eligible title and a record identifier. -/
def rwDupTitleEx : DataFrame := rw_db [(some "R1", none, some "Abcdefghijk")]

/-- Two references with the same eligible title and distinct record
identifiers. -/
def rwTwoRefsEx : DataFrame :=
  rw_db [(some "R1", none, some "Abcdefghijk"), (some "R2", none, some "Abcdefghijk")]

/-- A projected `doi`-strategy frame whose two rows agree on every
column of the claimed deduplication key — identifier, reference title,
strategy — and differ only in the pass-through `Author` column. -/
def doiFrameAuthorsEx : DataFrame :=
  ⟨RW_COLS,
   [[some (.str "T"), some (.str "p"), some (.str "Author One"), none, none,
     some (.str "10.1/a"), some (.str "10.1/a"), none],
    [some (.str "T"), some (.str "p"), some (.str "Author Two"), none, none,
     some (.str "10.1/a"), some (.str "10.1/a"), none]]⟩

/-- An empty projected strategy frame over the export columns. -/
def emptyRwColsEx : DataFrame := ⟨RW_COLS, []⟩

/-! ### Helper lemmas: characters -/

theorem isUpperC_iff {c : Char} :
    isUpperC c = true ↔ ∃ p ∈ upperLowerMap, p.1 = c := by
  simp [isUpperC, upperChars, List.contains_iff_exists_mem_beq, List.mem_map]

theorem isUpperC_toLowerChar (c : Char) : isUpperC (toLowerChar c) = false := by
  unfold toLowerChar
  cases hf : upperLowerMap.find? (fun p => p.1 == c) with
  | none =>
    rw [Bool.eq_false_iff]
    intro hc
    obtain ⟨p, hp, hpc⟩ := isUpperC_iff.mp hc
    have := List.find?_eq_none.mp hf p hp
    simp [hpc] at this
  | some p =>
    have hp : p ∈ upperLowerMap := List.mem_of_find?_eq_some hf
    have hall : upperLowerMap.all (fun q => !isUpperC q.2) = true := by decide
    have := List.all_eq_true.mp hall p hp
    simpa using this

theorem toLowerChar_eq_self {c : Char} (h : isUpperC c = false) :
    toLowerChar c = c := by
  unfold toLowerChar
  cases hf : upperLowerMap.find? (fun p => p.1 == c) with
  | none => rfl
  | some p =>
    have hp : p ∈ upperLowerMap := List.mem_of_find?_eq_some hf
    have hpc : p.1 = c := by
      have := List.find?_some hf
      simpa using this
    rw [Bool.eq_false_iff] at h
    exact absurd (isUpperC_iff.mpr ⟨p, hp, hpc⟩) h

theorem toLowerChar_idem (c : Char) :
    toLowerChar (toLowerChar c) = toLowerChar c :=
  toLowerChar_eq_self (isUpperC_toLowerChar c)

/-! ### Helper lemmas: trimming -/

theorem dropWhile_shape (p : Char → Bool) (l : List Char) :
    l.dropWhile p = [] ∨
      ∃ c t, l.dropWhile p = c :: t ∧ p c = false := by
  induction l with
  | nil => exact Or.inl rfl
  | cons c s ih =>
    by_cases h : p c
    · simpa [List.dropWhile, h] using ih
    · exact Or.inr ⟨c, s, by simp [List.dropWhile, h], by simpa using h⟩

theorem dropWhile_head_false {p : Char → Bool} {c : Char} {t : List Char}
    (h : p c = false) : (c :: t).dropWhile p = c :: t := by
  simp [List.dropWhile, h]

theorem dropWhile_idem (p : Char → Bool) (l : List Char) :
    (l.dropWhile p).dropWhile p = l.dropWhile p := by
  rcases dropWhile_shape p l with h | ⟨c, t, h, hc⟩
  · rw [h]; rfl
  · rw [h, dropWhile_head_false hc]

theorem dropWhile_isSuffix (p : Char → Bool) (l : List Char) :
    l.dropWhile p <:+ l := by
  induction l with
  | nil => exact List.suffix_refl _
  | cons c s ih =>
    by_cases h : p c
    · simpa [List.dropWhile, h] using ih.trans (List.suffix_cons c s)
    · simp [List.dropWhile, h]

theorem mem_trimLeft {c : Char} {l : List Char} (h : c ∈ trimLeft l) : c ∈ l :=
  (dropWhile_isSuffix isPySpace l).subset h

theorem mem_trimRight {c : Char} {l : List Char} (h : c ∈ trimRight l) : c ∈ l := by
  unfold trimRight at h
  have h1 : c ∈ l.reverse.dropWhile isPySpace := List.mem_reverse.mp h
  have h2 : c ∈ l.reverse := (dropWhile_isSuffix isPySpace l.reverse).subset h1
  exact List.mem_reverse.mp h2

theorem mem_pyStrip {c : Char} {l : List Char} (h : c ∈ pyStrip l) : c ∈ l :=
  mem_trimLeft (mem_trimRight h)

theorem trimRight_isPrefix (l : List Char) : trimRight l <+: l := by
  have h := dropWhile_isSuffix isPySpace l.reverse
  have := List.reverse_prefix.mpr h
  simpa [trimRight] using this

theorem trimLeft_trimRight_trimLeft (l : List Char) :
    trimLeft (trimRight (trimLeft l)) = trimRight (trimLeft l) := by
  rcases dropWhile_shape isPySpace l with h | ⟨c, t, h, hc⟩
  · rw [show trimLeft l = [] from h]
    rfl
  · have hA : trimLeft l = c :: t := h
    rcases trimRight_isPrefix (trimLeft l) with ⟨u, hu⟩
    cases hB : trimRight (trimLeft l) with
    | nil => rfl
    | cons d r =>
      rw [hB, hA] at hu
      have h2 : d :: (r ++ u) = c :: t := by simpa using hu
      injection h2 with h3 h4
      subst h3
      exact dropWhile_head_false hc

theorem trimRight_idem (l : List Char) : trimRight (trimRight l) = trimRight l := by
  unfold trimRight
  rw [List.reverse_reverse, dropWhile_idem]

theorem pyStrip_idem (l : List Char) : pyStrip (pyStrip l) = pyStrip l := by
  unfold pyStrip
  rw [trimLeft_trimRight_trimLeft, trimRight_idem]

theorem pyStrip_eq_nil_of_all {l : List Char}
    (h : ∀ c ∈ l, isPySpace c = true) : pyStrip l = [] := by
  have : trimLeft l = [] := by
    simpa [trimLeft, List.dropWhile_eq_nil_iff] using h
  unfold pyStrip
  rw [this]; rfl

/-! ### Helper lemmas: replacement and whitespace collapse -/

theorem replaceAllFuel_of_not_contains {pat repl : List Char} :
    ∀ (n : Nat) (l : List Char), containsSub pat l = false →
      replaceAllFuel pat repl n l = l := by
  intro n
  induction n with
  | zero => intro l _; rfl
  | succ n ih =>
    intro l h
    cases l with
    | nil => rfl
    | cons c s =>
      have h' : pat.isPrefixOf (c :: s) = false ∧ containsSub pat s = false := by
        simpa [containsSub] using h
      unfold replaceAllFuel
      rw [if_neg (by simp [h'.1]), ih s h'.2]

theorem replaceAll_of_not_contains {pat repl l : List Char}
    (h : containsSub pat l = false) : replaceAll pat repl l = l :=
  replaceAllFuel_of_not_contains l.length l h

theorem mem_replaceAllFuel_nil {pat : List Char} {c : Char} :
    ∀ (n : Nat) (l : List Char), c ∈ replaceAllFuel pat [] n l → c ∈ l := by
  intro n
  induction n with
  | zero => intro l h; exact h
  | succ n ih =>
    intro l h
    cases l with
    | nil => exact h
    | cons d s =>
      unfold replaceAllFuel at h
      split at h
      · exact List.drop_subset _ _ (ih _ (by simpa using h))
      · rcases List.mem_cons.mp h with h1 | h1
        · exact List.mem_cons.mpr (Or.inl h1)
        · exact List.mem_cons.mpr (Or.inr (ih _ h1))

theorem mem_replaceAll_nil {pat l : List Char} {c : Char}
    (h : c ∈ replaceAll pat [] l) : c ∈ l :=
  mem_replaceAllFuel_nil l.length l h

theorem mem_collapseWsAux {c : Char} :
    ∀ (l : List Char) (b : Bool), c ∈ collapseWsAux b l →
      c = ' ' ∨ (c ∈ l ∧ isPySpace c = false) := by
  intro l
  induction l with
  | nil => intro b h; cases h
  | cons d s ih =>
    intro b h
    unfold collapseWsAux at h
    by_cases hd : isPySpace d
    · rw [if_pos hd] at h
      by_cases hb : b
      · rw [if_pos hb] at h
        rcases ih true h with h1 | ⟨h1, h2⟩
        · exact Or.inl h1
        · exact Or.inr ⟨List.mem_cons.mpr (Or.inr h1), h2⟩
      · rw [if_neg hb] at h
        rcases List.mem_cons.mp h with h1 | h1
        · exact Or.inl h1
        · rcases ih true h1 with h2 | ⟨h2, h3⟩
          · exact Or.inl h2
          · exact Or.inr ⟨List.mem_cons.mpr (Or.inr h2), h3⟩
    · rw [if_neg hd] at h
      rcases List.mem_cons.mp h with h1 | h1
      · subst h1
        exact Or.inr ⟨List.mem_cons.mpr (Or.inl rfl), by simpa using hd⟩
      · rcases ih false h1 with h2 | ⟨h2, h3⟩
        · exact Or.inl h2
        · exact Or.inr ⟨List.mem_cons.mpr (Or.inr h2), h3⟩

/-! ### Claim C1 -/

/-- **C1** (code bug).  The application calls `match_by_doi` with the
default key `"doi"`, the raw identifier column of the upload, and the
reference frame has no such column (its identifiers live in
`OriginalPaperDOI` / `doi_norm`), so the identifier strategy raises
`KeyError` instead of inner-joining on the normalized identifier: for a
candidate with raw identifier `"10.1/X"` and a reference with raw
identifier `"https://doi.org/10.1/x"`, whose normalized identifiers
agree, the claimed join on `doi_norm` would yield exactly one Match
Record, but the shipped call errors. -/
theorem C1_identifier_join_uses_raw_key :
    app_doi_matches reviewIdEx rwIdEx = .error "KeyError: doi" ∧
    normalize_doi (some "10.1/X") = normalize_doi (some "https://doi.org/10.1/x") ∧
    (match_by_doi reviewIdEx rwIdEx "doi_norm").map (fun d => d.rows.length) =
      .ok 1 := by
  refine ⟨rfl, by decide, rfl⟩

/-! ### Counterexamples for the corrected claims -/

/-- **C2** counterexample.  At threshold 100 the fuzzy strategy still
emits one Match Record for the example titles (token-set similarity is
100 because the reference's tokens are a subset of the candidate's),
refuting "at threshold 100 it emits zero Match Records". -/
theorem C2_counterexample_threshold_100 :
    (match_by_title_fuzzy reviewFuzzyEx rwFuzzyEx "title_norm" 100).map
      (fun d => d.rows.length) = .ok 1 ∧ (1 : Nat) ≠ 0 := by
  refine ⟨rfl, by decide⟩

/-- **C3** counterexample.  Two candidates sharing one eligible
normalized title against one reference row form two (candidate,
reference) pairs, but the exact-title strategy deduplicates by
`(title_norm, Record ID)` and emits a single Match Record — one pair is
dropped as a duplicate, refuting the claimed identifier-style fan-out. -/
theorem C3_counterexample_pair_dropped :
    (match_by_title_exact reviewDupTitleEx rwDupTitleEx "title_norm").map
      (fun d => d.rows.length) = .ok 1 ∧ (1 : Nat) ≠ 2 := by
  refine ⟨rfl, by decide⟩

/-- **C4** counterexample.  Two Match Records agreeing on the claimed
deduplication key (identifier, reference title, strategy) and differing
only in the pass-through `Author` column do *not* collapse in the
display view: the display deduplicates on the full row and keeps both. -/
theorem C4_counterexample_display_key :
    (app_display doiFrameAuthorsEx emptyRwColsEx emptyRwColsEx).map
      (fun d => d.rows.length) = .ok 2 ∧ (2 : Nat) ≠ 1 := by
  refine ⟨rfl, by decide⟩

/-- **C5** counterexample.  `normalize_doi` is not idempotent: on
`"nandoi:"` one application removes the interior `"doi:"` and returns
`"nan"`, and a second application maps `"nan"` to `none`. -/
theorem C5_counterexample_not_idempotent :
    normalize_doi (normalize_doi (some "nandoi:")) ≠
      normalize_doi (some "nandoi:") := by
  decide

/-- **C6** counterexample.  `normalize_title "a . b"` is `"a  b"`: the
whitespace collapse runs before punctuation stripping, so removing the
`"."` leaves two consecutive spaces, refuting "no two consecutive
spaces". -/
theorem C6_counterexample_double_space :
    normalize_title (some "a . b") = some "a  b" ∧
    containsSub "  ".data "a  b".data = true := by
  refine ⟨by decide, by decide⟩

/-- **C7** counterexample.  The code removes *every* occurrence of the
patterns, not only a leading prefix: on `"10.1/xdoi:y"` it deletes the
interior `"doi:"` and returns `"10.1/xy"`, while the claimed
prefix-only normalization returns the input unchanged. -/
theorem C7_counterexample_interior_removed :
    normalize_doi (some "10.1/xdoi:y") = some "10.1/xy" ∧
    normalize_doi_claimC7 (some "10.1/xdoi:y") = some "10.1/xdoi:y" ∧
    normalize_doi (some "10.1/xdoi:y") ≠
      normalize_doi_claimC7 (some "10.1/xdoi:y") := by
  refine ⟨by decide, by decide, by decide⟩

/-! ### Claims C5, C6, C10: the normalizers -/

theorem dashToSpace_cases (c : Char) : dashToSpace c = ' ' ∨ dashToSpace c = c := by
  unfold dashToSpace
  split
  · exact Or.inl rfl
  · exact Or.inr rfl

/-- One-step unfolding of `normalize_doi` on a string input. -/
theorem normalize_doi_some_unfold (x : String) :
    normalize_doi (some x) =
      if pyStrip (pyLower x.data) = "".data ∨ pyStrip (pyLower x.data) = "nan".data ∨
          pyStrip (pyLower x.data) = "none".data then none
      else if pyStrip (replaceAll "doi:".data []
          (replaceAll "http://dx.doi.org/".data []
            (replaceAll "http://doi.org/".data []
              (replaceAll "https://doi.org/".data []
                (pyStrip (pyLower x.data)))))) = [] then none
      else some (String.mk (pyStrip (replaceAll "doi:".data []
          (replaceAll "http://dx.doi.org/".data []
            (replaceAll "http://doi.org/".data []
              (replaceAll "https://doi.org/".data []
                (pyStrip (pyLower x.data)))))))) := rfl

/-- Destructuring of a successful `normalize_doi`. -/
theorem normalize_doi_eq_some {x y : String} (h : normalize_doi (some x) = some y) :
    y.data =
      pyStrip (replaceAll "doi:".data []
        (replaceAll "http://dx.doi.org/".data []
          (replaceAll "http://doi.org/".data []
            (replaceAll "https://doi.org/".data [] (pyStrip (pyLower x.data)))))) ∧
    y.data ≠ [] := by
  rw [normalize_doi_some_unfold] at h
  split at h
  · cases h
  · split at h
    · cases h
    · next hr =>
      injection h with h'
      constructor
      · rw [← h']
      · rw [← h']
        exact hr

/-- Characters of a successful `normalize_doi` output are fixed by
lowercasing. -/
theorem normalize_doi_output_lower {x y : String}
    (h : normalize_doi (some x) = some y) :
    ∀ c ∈ y.data, toLowerChar c = c := by
  intro c hc
  obtain ⟨hy, -⟩ := normalize_doi_eq_some h
  rw [hy] at hc
  have h1 := mem_pyStrip hc
  have h2 := mem_replaceAll_nil h1
  have h3 := mem_replaceAll_nil h2
  have h4 := mem_replaceAll_nil h3
  have h5 := mem_replaceAll_nil h4
  have h6 := mem_pyStrip h5
  obtain ⟨o, -, rfl⟩ := List.mem_map.mp h6
  exact toLowerChar_idem o

/-- **C5** (amended).  `normalize_doi` is idempotent on every input whose
output contains no occurrence of the four removed patterns and is not one
of the null tokens `"nan"` / `"none"`; a second application of
`normalize_doi` can otherwise differ, because removing occurrences can
splice together a fresh occurrence or a null token. -/
theorem C5_amended_idempotent_when_output_clean :
    ∀ x : Option String,
      (∀ y : String, normalize_doi x = some y →
        containsSub "https://doi.org/".data y.data = false ∧
        containsSub "http://doi.org/".data y.data = false ∧
        containsSub "http://dx.doi.org/".data y.data = false ∧
        containsSub "doi:".data y.data = false ∧
        y ≠ "nan" ∧ y ≠ "none") →
      normalize_doi (normalize_doi x) = normalize_doi x := by
  intro x hclean
  cases x with
  | none => rfl
  | some x =>
    cases hx : normalize_doi (some x) with
    | none => rfl
    | some y =>
      obtain ⟨h1, h2, h3, h4, hnan, hnone⟩ := hclean y hx
      obtain ⟨hy, hne⟩ := normalize_doi_eq_some hx
      have hlow : pyLower y.data = y.data := by
        unfold pyLower
        have := List.map_congr_left (l := y.data) (f := toLowerChar) (g := id)
          (normalize_doi_output_lower hx)
        rw [this, List.map_id]
      have hstrip : pyStrip y.data = y.data := by
        rw [hy, pyStrip_idem]
      have hnan' : y.data ≠ "nan".data := fun hd => hnan (String.ext hd)
      have hnone' : y.data ≠ "none".data := fun hd => hnone (String.ext hd)
      rw [normalize_doi_some_unfold y, hlow, hstrip]
      rw [if_neg (by
        push_neg
        exact ⟨hne, hnan', hnone'⟩)]
      rw [replaceAll_of_not_contains h1, replaceAll_of_not_contains h2,
        replaceAll_of_not_contains h3, replaceAll_of_not_contains h4, hstrip]
      rw [if_neg hne]

/-- Witness: idempotence on a clean identifier. -/
theorem C5_amended_witness :
    normalize_doi (normalize_doi (some "10.1234/abc")) =
      normalize_doi (some "10.1234/abc") := by
  apply C5_amended_idempotent_when_output_clean
  intro y hy
  have h' : some ("10.1234/abc" : String) = some y := hy
  cases h'
  exact ⟨by decide, by decide, by decide, by decide, by decide, by decide⟩

/-- Destructuring of `normalize_title` on a string input. -/
theorem normalize_title_eq (s : String) :
    normalize_title (some s) =
      some (String.mk (pyStrip
        ((collapseWs ((pyLower s.data).map dashToSpace)).filter
          (fun ch => isWordChar ch || isPySpace ch)))) := rfl

/-- **C6** (amended).  Every character of a `normalize_title` output lies
in `[a-z0-9_ ]` (with the regex classes modelled over ASCII); the claimed
absence of double spaces does not hold, since stripping a punctuation
character can join two spaces. -/
theorem C6_amended_output_alphabet :
    ∀ s t : String, normalize_title (some s) = some t →
      ∀ c ∈ t.data, allowedTitleChar c = true := by
  intro s t h c hc
  rw [normalize_title_eq] at h
  injection h with h'
  rw [← h'] at hc
  have h1 := mem_pyStrip hc
  obtain ⟨hmem, hpred⟩ := List.mem_filter.mp h1
  rcases mem_collapseWsAux _ _ hmem with rfl | ⟨hmap, hnsp⟩
  · decide
  · have hword : isWordChar c = true := by
      rcases Bool.or_eq_true_iff.mp hpred with hw | hsp
      · exact hw
      · rw [hnsp] at hsp; cases hsp
    obtain ⟨a, ha, hac⟩ := List.mem_map.mp hmap
    have ha' : a ∈ List.map toLowerChar s.data := ha
    obtain ⟨o, -, rfl⟩ := List.mem_map.mp ha'
    rcases dashToSpace_cases (toLowerChar o) with hsp | hid
    · rw [hsp] at hac
      rw [← hac] at hnsp
      simp [isPySpace] at hnsp
    · rw [hid] at hac
      have hup : isUpperC c = false := hac ▸ isUpperC_toLowerChar o
      unfold isWordChar at hword
      unfold allowedTitleChar
      rw [hup] at hword
      simp only [Bool.false_or] at hword
      rcases Bool.or_eq_true_iff.mp hword with h2 | h2
      · rcases Bool.or_eq_true_iff.mp h2 with h3 | h3
        · simp [h3]
        · simp [h3]
      · simp [h2]

/-- Witness: the alphabet property at a concrete title. -/
theorem C6_amended_witness :
    normalize_title (some "Some / Title") = some "some title" ∧
    allowedTitleChar 's' = true :=
  ⟨by decide, C6_amended_output_alphabet "Some / Title" "some title" (by decide)
    's' (by decide)⟩

/-- **C10** (confirmed).  `normalize_title` is `none` only on a missing
input: every string input yields a string; a title consisting solely of
non-word characters (punctuation and whitespace) normalizes to the empty
string, which `filter_bad_titles` then classifies ineligible. -/
theorem C10_none_only_for_missing :
    normalize_title none = none ∧
    (∀ s : String, ∃ t : String, normalize_title (some s) = some t) ∧
    (∀ s : String, (∀ c ∈ s.data, isWordChar c = false) →
      normalize_title (some s) = some "" ∧
      filter_bad_titles (normalize_title (some s)) 10 = false) := by
  refine ⟨rfl, fun s => ⟨_, normalize_title_eq s⟩, ?_⟩
  intro s hs
  have hall : ∀ c ∈ (collapseWs ((pyLower s.data).map dashToSpace)).filter
      (fun ch => isWordChar ch || isPySpace ch), isPySpace c = true := by
    intro c hc
    obtain ⟨hmem, hpred⟩ := List.mem_filter.mp hc
    rcases mem_collapseWsAux _ _ hmem with rfl | ⟨hmap, hnsp⟩
    · decide
    · exfalso
      obtain ⟨a, ha, hac⟩ := List.mem_map.mp hmap
      have ha' : a ∈ List.map toLowerChar s.data := ha
      obtain ⟨o, ho, rfl⟩ := List.mem_map.mp ha'
      have hwo : isWordChar o = false := hs o ho
      have hupo : isUpperC o = false := by
        unfold isWordChar at hwo
        have h1 := Bool.or_eq_false_iff.mp hwo
        have h2 := Bool.or_eq_false_iff.mp h1.1
        have h3 := Bool.or_eq_false_iff.mp h2.1
        exact h3.1
      have hlo : toLowerChar o = o := toLowerChar_eq_self hupo
      rcases dashToSpace_cases (toLowerChar o) with hsp | hid
      · rw [hsp] at hac
        rw [← hac] at hnsp
        simp [isPySpace] at hnsp
      · rw [hid, hlo] at hac
        subst hac
        rcases Bool.or_eq_true_iff.mp hpred with hw | hsp
        · rw [hwo] at hw; cases hw
        · rw [hnsp] at hsp; cases hsp
  have hnil : pyStrip ((collapseWs ((pyLower s.data).map dashToSpace)).filter
      (fun ch => isWordChar ch || isPySpace ch)) = [] :=
    pyStrip_eq_nil_of_all hall
  have heq : normalize_title (some s) = some "" := by
    rw [normalize_title_eq, hnil]
  exact ⟨heq, by rw [heq]; decide⟩

/-- Witness: a punctuation-and-whitespace-only title. -/
theorem C10_witness :
    (∀ c ∈ "!?! .,".data, isWordChar c = false) ∧
    normalize_title (some "!?! .,") = some "" ∧
    filter_bad_titles (normalize_title (some "!?! .,")) 10 = false :=
  ⟨by decide, C10_none_only_for_missing.2.2 "!?! .," (by decide)⟩

/-! ### Claim C7 -/

/-- **C7** (amended).  `normalize_doi` returns `none` exactly when the
input is missing, lowercases-and-trims to `""`/`"nan"`/`"none"`, or
becomes empty after the removals and the final trim; otherwise it
returns the lowercased, trimmed input with *every occurrence* (not only
a leading prefix) of the four patterns removed, in order, and trimmed
again; it never returns the empty string. -/
theorem C7_amended_characterization :
    normalize_doi none = none ∧
    (∀ x : String, normalize_doi (some x) ≠ some "") ∧
    (∀ x : String,
      normalize_doi (some x) = none ↔
        (pyStrip (pyLower x.data) = [] ∨
         pyStrip (pyLower x.data) = "nan".data ∨
         pyStrip (pyLower x.data) = "none".data ∨
         pyStrip (replaceAll "doi:".data []
           (replaceAll "http://dx.doi.org/".data []
             (replaceAll "http://doi.org/".data []
               (replaceAll "https://doi.org/".data []
                 (pyStrip (pyLower x.data)))))) = [])) ∧
    (∀ x y : String, normalize_doi (some x) = some y →
      y.data = pyStrip (replaceAll "doi:".data []
        (replaceAll "http://dx.doi.org/".data []
          (replaceAll "http://doi.org/".data []
            (replaceAll "https://doi.org/".data []
              (pyStrip (pyLower x.data))))))) := by
  refine ⟨rfl, ?_, ?_, ?_⟩
  · intro x h
    exact (normalize_doi_eq_some h).2 rfl
  · intro x
    rw [normalize_doi_some_unfold]
    constructor
    · intro h
      by_cases h1 : pyStrip (pyLower x.data) = "".data ∨
          pyStrip (pyLower x.data) = "nan".data ∨
          pyStrip (pyLower x.data) = "none".data
      · rcases h1 with h1 | h1 | h1
        · exact Or.inl h1
        · exact Or.inr (Or.inl h1)
        · exact Or.inr (Or.inr (Or.inl h1))
      · rw [if_neg h1] at h
        split at h
        · next h2 => exact Or.inr (Or.inr (Or.inr h2))
        · cases h
    · intro h
      rcases h with h | h | h | h
      · rw [if_pos (Or.inl h)]
      · rw [if_pos (Or.inr (Or.inl h))]
      · rw [if_pos (Or.inr (Or.inr h))]
      · by_cases h1 : pyStrip (pyLower x.data) = "".data ∨
            pyStrip (pyLower x.data) = "nan".data ∨
            pyStrip (pyLower x.data) = "none".data
        · rw [if_pos h1]
        · rw [if_neg h1, if_pos h]
  · intro x y h
    exact (normalize_doi_eq_some h).1

/-- Witness: the characterization at a concrete identifier with a
prefix, and the never-empty property. -/
theorem C7_amended_witness :
    normalize_doi (some "DOI:10.5/z") = some "10.5/z" ∧
    normalize_doi (some "DOI:10.5/z") ≠ some "" ∧
    ("10.5/z" : String).data = pyStrip (replaceAll "doi:".data []
      (replaceAll "http://dx.doi.org/".data []
        (replaceAll "http://doi.org/".data []
          (replaceAll "https://doi.org/".data []
            (pyStrip (pyLower "DOI:10.5/z".data)))))) :=
  ⟨by decide, C7_amended_characterization.2.1 "DOI:10.5/z",
   C7_amended_characterization.2.2.2 "DOI:10.5/z" "10.5/z" (by decide)⟩

/-! ### Claim C8 -/

/-- One-step unfolding of `filter_bad_titles` on a present title. -/
theorem filter_bad_titles_some (s : String) (n : Nat) :
    filter_bad_titles (some s) n =
      if s = "" then false
      else if BAD_TITLES.contains s then false
      else if s.length < n then false
      else true := rfl

/-- **C8** (confirmed).  `filter_bad_titles` (with the default minimum
length 10) rejects exactly the missing/empty titles, the ten stop words,
and the titles shorter than 10 characters; the application restricts
exact (and fuzzy) title matching to rows whose eligibility flag is set
on both sides, while the identifier strategy receives the unrestricted
frames. -/
theorem C8_eligibility :
    (∀ t : Option String, filter_bad_titles t 10 = false ↔
      (t = none ∨ t = some "" ∨
        ∃ s : String, t = some s ∧
          (BAD_TITLES.contains s = true ∨ s.length < 10))) ∧
    (∀ (df out : DataFrame) (i : Nat), df.maskTrue "title_ok" = .ok out →
      df.colIdx "title_ok" = some i →
      ∀ r ∈ out.rows, DataFrame.cellAt r i = some (.bool true)) ∧
    (∀ review rw : DataFrame,
      app_doi_matches review rw = match_by_doi review rw "doi") := by
  refine ⟨?_, ?_, fun _ _ => rfl⟩
  · intro t
    cases t with
    | none => simp [filter_bad_titles]
    | some s =>
      rw [filter_bad_titles_some]
      by_cases h1 : s = ""
      · subst h1
        rw [if_pos rfl]
        exact iff_of_true rfl (Or.inr (Or.inl rfl))
      · rw [if_neg h1]
        by_cases h2 : BAD_TITLES.contains s = true
        · rw [if_pos h2]
          exact iff_of_true rfl (Or.inr (Or.inr ⟨s, rfl, Or.inl h2⟩))
        · rw [if_neg h2]
          by_cases h3 : s.length < 10
          · rw [if_pos h3]
            exact iff_of_true rfl (Or.inr (Or.inr ⟨s, rfl, Or.inr h3⟩))
          · rw [if_neg h3]
            apply iff_of_false
            · simp
            · rintro (h | h | ⟨s', hs', h⟩)
              · cases h
              · injection h with h'
                exact h1 h'
              · injection hs' with h'
                subst h'
                rcases h with h | h
                · exact h2 h
                · exact h3 h
  · intro df out i hmask hidx r hr
    unfold DataFrame.maskTrue at hmask
    rw [hidx] at hmask
    injection hmask with h'
    rw [← h'] at hr
    have := List.mem_filter.mp hr
    exact of_decide_eq_true this.2

/-- Witness: the stop word `"corrigendum"` is rejected although its
length exceeds the minimum. -/
theorem C8_witness :
    filter_bad_titles (some "corrigendum") 10 = false ∧
    filter_bad_titles (some "erratum") 10 = false :=
  ⟨(C8_eligibility.1 (some "corrigendum")).mpr
      (Or.inr (Or.inr ⟨"corrigendum", rfl, Or.inl (by decide)⟩)),
   (C8_eligibility.1 (some "erratum")).mpr
      (Or.inr (Or.inr ⟨"erratum", rfl, Or.inl (by decide)⟩))⟩

/-! ### Claim C9 -/

theorem best_match_nil (threshold : ℚ) (t : Option Cell) :
    best_match [] threshold t = (none, none) := by
  cases t with
  | none => rfl
  | some c =>
    have hstep : best_match [] threshold (some c) =
        (if (⟨pyStrip (cellToStr c).data⟩ : String) = "" then (none, none)
         else match extractOne ⟨pyStrip (cellToStr c).data⟩ [] threshold with
           | none => (none, none)
           | some (m, sc) => (some (Cell.str m), some (Cell.num sc))) := rfl
    rw [hstep,
      show extractOne (⟨pyStrip (cellToStr c).data⟩ : String) [] threshold = none
        from rfl]
    split
    · rfl
    · rfl

theorem cellAt_append_pair (r : Row) (a b : Option Cell) :
    DataFrame.cellAt (r ++ [a, b]) r.length = a := by
  unfold DataFrame.cellAt
  rw [List.getD_eq_getElem?_getD, List.getElem?_append_right (Nat.le_refl _)]
  simp

/-- The fresh `matched_title_norm` column sits right after the original
columns. -/
theorem colIdx_matched_title (cols : List String)
    (h : "matched_title_norm" ∉ cols) (rows : List Row) :
    DataFrame.colIdx
      ⟨cols ++ ["matched_title_norm", "title_score"], rows⟩
      "matched_title_norm" = some cols.length := by
  unfold DataFrame.colIdx
  rw [List.findIdx?_append]
  have h1 : cols.findIdx? (fun c => c = "matched_title_norm") = none := by
    rw [List.findIdx?_eq_none_iff]
    intro x hx
    simp only [decide_eq_false_iff_not]
    intro hx'
    exact h (hx' ▸ hx)
  rw [h1]
  simp [List.findIdx?]

/-- **C9** (code bug).  The claim says the fuzzy strategy returns an
empty Match Record set — not an error — both when the eligible candidate
set is empty and when the pool of eligible reference titles is empty.
The second half holds: with no reference titles every candidate gets no
match and the result is `ok` with zero rows.  The first half is false of
the code: on an empty candidate frame the two-column assignment raises
`ValueError` (pandas: "Columns must be same length as key"), because
`Series.apply` over zero elements yields an empty one-dimensional
Series.  This theorem proves the error on every empty candidate frame,
the empty-result behaviour for the zero-reference-titles case, and
evaluates the error at a concrete empty upload. -/
theorem C9_fuzzy_empty_candidates_raise :
    (∀ (review rw : DataFrame) (threshold : ℚ) (i j : Nat),
      review.colIdx "title_norm" = some i →
      rw.colIdx "title_norm" = some j →
      review.rows = [] →
      match_by_title_fuzzy review rw "title_norm" threshold =
        .error "ValueError: Columns must be same length as key") ∧
    (∀ (review rw : DataFrame) (threshold : ℚ) (i j : Nat),
      review.colIdx "title_norm" = some i →
      rw.colIdx "title_norm" = some j →
      review.rows ≠ [] →
      "matched_title_norm" ∉ review.cols →
      (∀ r ∈ review.rows, r.length = review.cols.length) →
      (∀ r ∈ rw.rows, DataFrame.cellAt r j = none) →
      ∃ out, match_by_title_fuzzy review rw "title_norm" threshold = .ok out ∧
        out.rows = []) ∧
    match_by_title_fuzzy (read_ris []) rwFuzzyEx "title_norm" 90 =
      .error "ValueError: Columns must be same length as key" := by
  refine ⟨?_, ?_, rfl⟩
  · intro review rw threshold i j hi hj hempty
    unfold match_by_title_fuzzy
    rw [hi, hj]
    dsimp only
    rw [hempty]
    rfl
  · intro review rw threshold i j hi hj hne hfresh hlen hnone
    unfold match_by_title_fuzzy
    rw [hi, hj]
    dsimp only
    rw [if_neg (by
      intro h
      exact hne (List.isEmpty_iff.mp h))]
    have htitles :
        dedupStrAux []
          (List.map cellToStr (List.filterMap (fun r => DataFrame.cellAt r j) rw.rows)) =
          [] := by
      rw [List.filterMap_eq_nil_iff.mpr hnone]
      rfl
    rw [htitles]
    have hrows :
        List.map (fun r =>
          r ++ [(best_match [] threshold (DataFrame.cellAt r i)).1,
            (best_match [] threshold (DataFrame.cellAt r i)).2]) review.rows =
        List.map (fun r => r ++ [none, none]) review.rows := by
      apply List.map_congr_left
      intro r _
      rw [best_match_nil]
    rw [hrows]
    have hfilter :
        (review.rows.map (fun r => r ++ [none, none])).filter
          (fun r => (DataFrame.cellAt r review.cols.length).isSome) = [] := by
      rw [List.filter_eq_nil_iff]
      intro r hr
      obtain ⟨r0, hr0, rfl⟩ := List.mem_map.mp hr
      rw [← hlen r0 hr0, cellAt_append_pair]
      simp
    have hdrop : DataFrame.dropna
        ⟨review.cols ++ ["matched_title_norm", "title_score"],
          review.rows.map (fun r => r ++ [none, none])⟩
        "matched_title_norm" =
        .ok ⟨review.cols ++ ["matched_title_norm", "title_score"], []⟩ := by
      unfold DataFrame.dropna
      rw [colIdx_matched_title review.cols hfresh]
      dsimp only
      rw [hfilter]
    rw [hdrop]
    exact ⟨_, rfl, rfl⟩

/-- Witness: the error on an empty upload and the empty `ok` result for
a one-candidate frame against a reference frame whose only row has no
title. -/
theorem C9_witness :
    match_by_title_fuzzy (read_ris []) rwFuzzyEx "title_norm" 90 =
      .error "ValueError: Columns must be same length as key" ∧
    ∃ out,
      match_by_title_fuzzy (read_ris [(none, some "The Effects of X on Y in Rats")])
        (rw_db [(some "R1", some "10.1/z", none)]) "title_norm" 90 = .ok out ∧
      out.rows = [] :=
  ⟨C9_fuzzy_empty_candidates_raise.1 (read_ris []) rwFuzzyEx 90 3 8 rfl rfl rfl,
   C9_fuzzy_empty_candidates_raise.2.1
     (read_ris [(none, some "The Effects of X on Y in Rats")])
     (rw_db [(some "R1", some "10.1/z", none)]) 90 3 8 rfl rfl
     (by decide) (by decide) (by decide) (by decide)⟩

/-! ### Helper lemmas: first-occurrence deduplication -/

theorem dedupByAux_sublist (k : Row → List (Option Cell)) :
    ∀ (l : List Row) (s : List (List (Option Cell))),
      List.Sublist (DataFrame.dedupByAux k s l) l := by
  intro l
  induction l with
  | nil => intro s; exact List.Sublist.refl _
  | cons r rs ih =>
    intro s
    unfold DataFrame.dedupByAux
    split
    · exact (ih s).trans (List.sublist_cons_self r rs)
    · exact (ih (k r :: s)).cons₂ r

theorem mem_of_mem_dedupByAux {k : Row → List (Option Cell)} {l : List Row}
    {s : List (List (Option Cell))} {r : Row}
    (h : r ∈ DataFrame.dedupByAux k s l) : r ∈ l :=
  (dedupByAux_sublist k l s).subset h

theorem key_mem_dedupByAux {k : Row → List (Option Cell)} :
    ∀ (l : List Row) (s : List (List (Option Cell))) (r : Row), r ∈ l →
      s.contains (k r) = true ∨
      ∃ x ∈ DataFrame.dedupByAux k s l, k x = k r := by
  intro l
  induction l with
  | nil => intro s r h; cases h
  | cons q rs ih =>
    intro s r h
    unfold DataFrame.dedupByAux
    rcases List.mem_cons.mp h with rfl | hmem
    · by_cases hs : s.contains (k r) = true
      · exact Or.inl hs
      · rw [if_neg hs]
        exact Or.inr ⟨r, List.mem_cons.mpr (Or.inl rfl), rfl⟩
    · by_cases hs : s.contains (k q) = true
      · rw [if_pos hs]
        exact ih s r hmem
      · rw [if_neg hs]
        rcases ih (k q :: s) r hmem with hseen | ⟨x, hx, hkx⟩
        · rw [List.contains_cons] at hseen
          rcases Bool.or_eq_true_iff.mp hseen with h1 | h1
          · exact Or.inr ⟨q, List.mem_cons.mpr (Or.inl rfl), (beq_iff_eq.mp h1).symm⟩
          · exact Or.inl h1
        · exact Or.inr ⟨x, List.mem_cons.mpr (Or.inr hx), hkx⟩

theorem dedupByAux_key_nodup {k : Row → List (Option Cell)} :
    ∀ (l : List Row) (s : List (List (Option Cell))),
      ((DataFrame.dedupByAux k s l).map k).Nodup ∧
      ∀ x ∈ DataFrame.dedupByAux k s l, s.contains (k x) = false := by
  intro l
  induction l with
  | nil => intro s; exact ⟨List.nodup_nil, fun x hx => absurd hx (List.not_mem_nil x)⟩
  | cons q rs ih =>
    intro s
    unfold DataFrame.dedupByAux
    split
    · exact ih s
    · next hq =>
      obtain ⟨hnodup, hseen⟩ := ih (k q :: s)
      refine ⟨?_, ?_⟩
      · rw [List.map_cons, List.nodup_cons]
        refine ⟨?_, hnodup⟩
        intro hmem
        obtain ⟨x, hx, hkx⟩ := List.mem_map.mp hmem
        have hp := hseen x hx
        rw [List.contains_cons] at hp
        have h1 := (Bool.or_eq_false_iff.mp hp).1
        rw [hkx] at h1
        simp at h1
      · intro x hx
        rcases List.mem_cons.mp hx with rfl | hx'
        · exact Bool.eq_false_iff.mpr hq
        · have hp := hseen x hx'
          rw [List.contains_cons] at hp
          exact (Bool.or_eq_false_iff.mp hp).2

theorem dedupByAux_eq_nil_of_seen {k : Row → List (Option Cell)} :
    ∀ (l : List Row) (s : List (List (Option Cell))),
      (∀ x ∈ l, s.contains (k x) = true) →
      DataFrame.dedupByAux k s l = [] := by
  intro l
  induction l with
  | nil => intro s _; rfl
  | cons q rs ih =>
    intro s h
    unfold DataFrame.dedupByAux
    rw [if_pos (h q (List.mem_cons.mpr (Or.inl rfl)))]
    exact ih s (fun x hx => h x (List.mem_cons.mpr (Or.inr hx)))

/-- Full-row deduplication: no duplicates, a sublist, the same members. -/
theorem dropDupFull_spec (df : DataFrame) :
    (df.dropDupFull).rows.Nodup ∧
    List.Sublist (df.dropDupFull).rows df.rows ∧
    (∀ r, r ∈ (df.dropDupFull).rows ↔ r ∈ df.rows) := by
  unfold DataFrame.dropDupFull
  refine ⟨?_, dedupByAux_sublist _ _ _, ?_⟩
  · have h := (dedupByAux_key_nodup (k := fun r => r) df.rows []).1
    simpa using h
  · intro r
    constructor
    · exact mem_of_mem_dedupByAux
    · intro hr
      rcases key_mem_dedupByAux (k := fun r => r) df.rows [] r hr with h | ⟨x, hx, hkx⟩
      · cases h
      · exact hkx ▸ hx

/-! ### Claim C4 (amended) -/

/-- **C4** (amended).  The display view is the *full-row* first-occurrence
deduplication of the export multiset: its deduplication key is the entire
projected row, not (identifier, reference title, strategy), so Match
Records that differ in any retained column stay separate and only fully
identical rows collapse; the export view preserves the full
un-deduplicated multiset of tagged Match Records. -/
theorem C4_amended_display_is_full_row_dedup :
    ∀ d e f : DataFrame, e.cols = d.cols → f.cols = d.cols →
      ∃ exp disp,
        app_export d e f = .ok exp ∧
        app_display d e f = .ok disp ∧
        exp.rows.length = d.rows.length + e.rows.length + f.rows.length ∧
        disp.rows.Nodup ∧
        List.Sublist disp.rows exp.rows ∧
        (∀ r, r ∈ disp.rows ↔ r ∈ exp.rows) := by
  intro d e f he hf
  have hcols1 : (d.assign "match_type" (.str "doi")).cols =
      (e.assign "match_type" (.str "title_exact")).cols := by
    unfold DataFrame.assign
    rw [he]
  have hcomb : app_combined d e f = .ok
      ⟨d.cols ++ ["match_type"],
        (d.rows.map (fun r => r ++ [some (.str "doi")]) ++
          e.rows.map (fun r => r ++ [some (.str "title_exact")])) ++
          f.rows.map (fun r => r ++ [some (.str "title_fuzzy")])⟩ := by
    unfold app_combined DataFrame.concatRows
    rw [if_pos hcols1]
    dsimp only [DataFrame.assign]
    rw [if_pos (show d.cols ++ ["match_type"] = f.cols ++ ["match_type"] by rw [hf])]
  have hdisp : app_display d e f = .ok (DataFrame.dropDupFull
      ⟨d.cols ++ ["match_type"],
        (d.rows.map (fun r => r ++ [some (.str "doi")]) ++
          e.rows.map (fun r => r ++ [some (.str "title_exact")])) ++
          f.rows.map (fun r => r ++ [some (.str "title_fuzzy")])⟩) := by
    unfold app_display
    rw [hcomb]
    rfl
  refine ⟨_, _, hcomb, hdisp, ?_, ?_, ?_, ?_⟩
  · simp [List.length_append, List.length_map, Nat.add_assoc]
  · exact (dropDupFull_spec _).1
  · exact (dropDupFull_spec _).2.1
  · exact (dropDupFull_spec _).2.2

/-- Witness: the consolidation on concrete frames, two of whose rows
differ only outside the claimed key. -/
theorem C4_amended_witness :
    ∃ exp disp,
      app_export doiFrameAuthorsEx emptyRwColsEx emptyRwColsEx = .ok exp ∧
      app_display doiFrameAuthorsEx emptyRwColsEx emptyRwColsEx = .ok disp ∧
      exp.rows.length = doiFrameAuthorsEx.rows.length +
        emptyRwColsEx.rows.length + emptyRwColsEx.rows.length ∧
      disp.rows.Nodup ∧
      List.Sublist disp.rows exp.rows ∧
      (∀ r, r ∈ disp.rows ↔ r ∈ exp.rows) :=
  C4_amended_display_is_full_row_dedup doiFrameAuthorsEx emptyRwColsEx
    emptyRwColsEx rfl rfl

/-! ### Claim C3 (amended) -/

theorem mem_flatten_replicate {α : Type} {x : α} {n : Nat} {l : List α}
    (h : x ∈ (List.replicate n l).flatten) : x ∈ l := by
  obtain ⟨s, hs, hx⟩ := List.mem_flatten.mp h
  rw [List.eq_of_mem_replicate hs] at hx
  exact hx

theorem dedupByAux_flatten_replicate_one {k : Row → List (Option Cell)}
    (n : Nat) (x : Row) :
    DataFrame.dedupByAux k [] (List.replicate (n + 1) [x]).flatten = [x] := by
  have hflat : (List.replicate (n + 1) [x]).flatten =
      x :: (List.replicate n [x]).flatten := by
    rw [List.replicate_succ, List.flatten_cons]
    rfl
  rw [hflat]
  unfold DataFrame.dedupByAux
  rw [if_neg (by simp)]
  have h0 : DataFrame.dedupByAux k [k x] (List.replicate n [x]).flatten = [] := by
    apply dedupByAux_eq_nil_of_seen
    intro y hy
    have hxy := mem_flatten_replicate hy
    simp only [List.mem_singleton] at hxy
    subst hxy
    simp
  rw [h0]

theorem dedupByAux_flatten_replicate_two {k : Row → List (Option Cell)}
    (n : Nat) (x y : Row) (hne : (k y == k x) = false) :
    DataFrame.dedupByAux k [] (List.replicate (n + 1) [x, y]).flatten = [x, y] := by
  have hflat : (List.replicate (n + 1) [x, y]).flatten =
      x :: y :: (List.replicate n [x, y]).flatten := by
    rw [List.replicate_succ, List.flatten_cons]
    rfl
  rw [hflat]
  unfold DataFrame.dedupByAux
  rw [if_neg (by simp)]
  unfold DataFrame.dedupByAux
  rw [if_neg (by
    simp only [List.contains_cons, List.contains_nil, Bool.or_false, hne]
    exact Bool.false_ne_true)]
  have h0 : DataFrame.dedupByAux k [k y, k x]
      (List.replicate n [x, y]).flatten = [] := by
    apply dedupByAux_eq_nil_of_seen
    intro z hz
    have hxy := mem_flatten_replicate hz
    rcases List.mem_cons.mp hxy with rfl | hz2
    · simp [List.contains_cons]
    · simp only [List.mem_singleton] at hz2
      subst hz2
      simp [List.contains_cons]
  rw [h0]

/-- **C3** (amended).  `matchByExactTitle` inner-joins the eligible rows
on normalized title with tag `title_exact`, but — unlike identifier
matching — when a `"Record ID"` column is present it deduplicates the
joined rows by (normalized title, Record ID): for any number of
candidates sharing one eligible normalized title, each matching
reference row contributes exactly one Match Record (one reference row
gives one record, two reference rows with distinct record identifiers
give two records, for every candidate count m + 1). -/
theorem C3_amended_one_record_per_reference :
    ∀ m : Nat,
      (match_by_title_exact
        (read_ris (List.replicate (m + 1) (none, some "Abcdefghijk")))
        rwDupTitleEx "title_norm").map (fun d => d.rows.length) = .ok 1 ∧
      (match_by_title_exact
        (read_ris (List.replicate (m + 1) (none, some "Abcdefghijk")))
        rwTwoRefsEx "title_norm").map (fun d => d.rows.length) = .ok 2 := by
  intro m
  have hread : read_ris (List.replicate (m + 1) (none, some "Abcdefghijk")) =
      ⟨READ_RIS_COLS, List.replicate (m + 1) (read_ris_row none (some "Abcdefghijk"))⟩ := by
    unfold read_ris
    rw [List.map_replicate]
  have hL : DataFrame.dropna
      ⟨READ_RIS_COLS, List.replicate (m + 1) (read_ris_row none (some "Abcdefghijk"))⟩
      "title_norm" =
      .ok ⟨READ_RIS_COLS, List.replicate (m + 1) (read_ris_row none (some "Abcdefghijk"))⟩ := by
    unfold DataFrame.dropna
    rw [show DataFrame.colIdx
        ⟨READ_RIS_COLS, List.replicate (m + 1) (read_ris_row none (some "Abcdefghijk"))⟩
        "title_norm" = some 3 from rfl]
    dsimp only
    rw [List.filter_replicate_of_pos (by decide)]
  constructor
  · have hM : DataFrame.merge
        ⟨READ_RIS_COLS, List.replicate (m + 1) (read_ris_row none (some "Abcdefghijk"))⟩
        rwDupTitleEx "title_norm" "_ris" "_rw" =
        .ok ⟨DataFrame.renameShared READ_RIS_COLS RW_DB_COLS "title_norm" "_ris" ++
              DataFrame.renameShared (RW_DB_COLS.eraseIdx 8) READ_RIS_COLS "title_norm" "_rw",
            (List.replicate (m + 1)
              [read_ris_row none (some "Abcdefghijk") ++
                (rw_db_row (some "R1") none (some "Abcdefghijk")).eraseIdx 8]).flatten⟩ := by
      unfold DataFrame.merge
      rw [show DataFrame.colIdx
          ⟨READ_RIS_COLS, List.replicate (m + 1) (read_ris_row none (some "Abcdefghijk"))⟩
          "title_norm" = some 3 from rfl]
      rw [show DataFrame.colIdx rwDupTitleEx "title_norm" = some 8 from rfl]
      dsimp only
      rw [List.map_replicate]
      rfl
    rw [hread]
    unfold match_by_title_exact
    rw [hL]
    dsimp only
    rw [show DataFrame.dropna rwDupTitleEx "title_norm" = .ok rwDupTitleEx from rfl]
    dsimp only
    rw [hM]
    dsimp only
    rw [if_pos (by decide)]
    unfold DataFrame.dropDupSubset
    dsimp only
    rw [show ["title_norm", "Record ID"].filterMap
        (DataFrame.colIdx ⟨DataFrame.renameShared READ_RIS_COLS RW_DB_COLS "title_norm" "_ris" ++
          DataFrame.renameShared (RW_DB_COLS.eraseIdx 8) READ_RIS_COLS "title_norm" "_rw",
          (List.replicate (m + 1)
            [read_ris_row none (some "Abcdefghijk") ++
              (rw_db_row (some "R1") none (some "Abcdefghijk")).eraseIdx 8]).flatten⟩) =
        [3, 5] from rfl]
    rw [dedupByAux_flatten_replicate_one]
    rfl
  · have hM : DataFrame.merge
        ⟨READ_RIS_COLS, List.replicate (m + 1) (read_ris_row none (some "Abcdefghijk"))⟩
        rwTwoRefsEx "title_norm" "_ris" "_rw" =
        .ok ⟨DataFrame.renameShared READ_RIS_COLS RW_DB_COLS "title_norm" "_ris" ++
              DataFrame.renameShared (RW_DB_COLS.eraseIdx 8) READ_RIS_COLS "title_norm" "_rw",
            (List.replicate (m + 1)
              [read_ris_row none (some "Abcdefghijk") ++
                (rw_db_row (some "R1") none (some "Abcdefghijk")).eraseIdx 8,
               read_ris_row none (some "Abcdefghijk") ++
                (rw_db_row (some "R2") none (some "Abcdefghijk")).eraseIdx 8]).flatten⟩ := by
      unfold DataFrame.merge
      rw [show DataFrame.colIdx
          ⟨READ_RIS_COLS, List.replicate (m + 1) (read_ris_row none (some "Abcdefghijk"))⟩
          "title_norm" = some 3 from rfl]
      rw [show DataFrame.colIdx rwTwoRefsEx "title_norm" = some 8 from rfl]
      dsimp only
      rw [List.map_replicate]
      rfl
    rw [hread]
    unfold match_by_title_exact
    rw [hL]
    dsimp only
    rw [show DataFrame.dropna rwTwoRefsEx "title_norm" = .ok rwTwoRefsEx from rfl]
    dsimp only
    rw [hM]
    dsimp only
    rw [if_pos (by decide)]
    unfold DataFrame.dropDupSubset
    dsimp only
    rw [show ["title_norm", "Record ID"].filterMap
        (DataFrame.colIdx ⟨DataFrame.renameShared READ_RIS_COLS RW_DB_COLS "title_norm" "_ris" ++
          DataFrame.renameShared (RW_DB_COLS.eraseIdx 8) READ_RIS_COLS "title_norm" "_rw",
          (List.replicate (m + 1)
            [read_ris_row none (some "Abcdefghijk") ++
              (rw_db_row (some "R1") none (some "Abcdefghijk")).eraseIdx 8,
             read_ris_row none (some "Abcdefghijk") ++
              (rw_db_row (some "R2") none (some "Abcdefghijk")).eraseIdx 8]).flatten⟩) =
        [3, 5] from rfl]
    rw [dedupByAux_flatten_replicate_two _ _ _ (by decide)]
    rfl

/-- Witness: the collapse at one concrete candidate count. -/
theorem C3_amended_witness :
    (match_by_title_exact (read_ris (List.replicate 3 (none, some "Abcdefghijk")))
      rwDupTitleEx "title_norm").map (fun d => d.rows.length) = .ok 1 ∧
    (match_by_title_exact (read_ris (List.replicate 3 (none, some "Abcdefghijk")))
      rwTwoRefsEx "title_norm").map (fun d => d.rows.length) = .ok 2 :=
  C3_amended_one_record_per_reference 2

/-! ### Claim C2 (amended) -/

theorem extractOneAux_sound (q : String) (cutoff : ℚ) :
    ∀ (choices : List String) (best : Option (String × ℚ)) (m : String) (sc : ℚ),
      (∀ b bs, best = some (b, bs) → cutoff ≤ bs) →
      extractOneAux q cutoff best choices = some (m, sc) →
      cutoff ≤ sc ∧
      (best = some (m, sc) ∨ (m ∈ choices ∧ sc = token_set_ratio q m)) ∧
      (∀ c ∈ choices, token_set_ratio q c ≤ sc) ∧
      (∀ b bs, best = some (b, bs) → bs ≤ sc) := by
  intro choices
  induction choices with
  | nil =>
    intro best m sc hbest h
    unfold extractOneAux at h
    refine ⟨hbest m sc h, Or.inl h, fun c hc => absurd hc (List.not_mem_nil c), ?_⟩
    intro b bs hb
    rw [h] at hb
    injection hb with hb'
    injection hb' with h1 h2
    rw [← h2]
  | cons c cs ih =>
    intro best m sc hbest h
    unfold extractOneAux at h
    cases best with
    | none =>
      dsimp only at h
      split at h
      · next hcut =>
        obtain ⟨h1, h2, h3, h4⟩ := ih (some (c, token_set_ratio q c)) m sc
          (fun b bs hb => by
            injection hb with hb'
            injection hb' with hb1 hb2
            rw [← hb2]
            exact hcut) h
        refine ⟨h1, ?_, ?_, ?_⟩
        · rcases h2 with h2 | h2
          · injection h2 with h2'
            injection h2' with hm hsc
            exact Or.inr ⟨hm ▸ List.mem_cons.mpr (Or.inl rfl),
              by rw [← hsc, ← hm]⟩
          · exact Or.inr ⟨List.mem_cons.mpr (Or.inr h2.1), h2.2⟩
        · intro d hd
          rcases List.mem_cons.mp hd with rfl | hd'
          · exact h4 d (token_set_ratio q d) rfl
          · exact h3 d hd'
        · intro b bs hb
          exact Option.noConfusion hb
      · next hcut =>
        obtain ⟨h1, h2, h3, h4⟩ := ih none m sc
          (fun b bs hb => Option.noConfusion hb) h
        refine ⟨h1, ?_, ?_, fun b bs hb => Option.noConfusion hb⟩
        · rcases h2 with h2 | h2
          · exact Option.noConfusion h2
          · exact Or.inr ⟨List.mem_cons.mpr (Or.inr h2.1), h2.2⟩
        · intro d hd
          rcases List.mem_cons.mp hd with rfl | hd'
          · exact (not_le.mp hcut).le.trans h1
          · exact h3 d hd'
    | some p =>
      obtain ⟨b₀, bs₀⟩ := p
      dsimp only at h
      split at h
      · next hlt =>
        have hcut0 : cutoff ≤ bs₀ := hbest b₀ bs₀ rfl
        obtain ⟨h1, h2, h3, h4⟩ := ih (some (c, token_set_ratio q c)) m sc
          (fun b bs hb => by
            injection hb with hb'
            injection hb' with hb1 hb2
            rw [← hb2]
            exact hcut0.trans hlt.le) h
        refine ⟨h1, ?_, ?_, ?_⟩
        · rcases h2 with h2 | h2
          · injection h2 with h2'
            injection h2' with hm hsc
            exact Or.inr ⟨hm ▸ List.mem_cons.mpr (Or.inl rfl),
              by rw [← hsc, ← hm]⟩
          · exact Or.inr ⟨List.mem_cons.mpr (Or.inr h2.1), h2.2⟩
        · intro d hd
          rcases List.mem_cons.mp hd with rfl | hd'
          · exact h4 d (token_set_ratio q d) rfl
          · exact h3 d hd'
        · intro b bs hb
          injection hb with hb'
          injection hb' with hb1 hb2
          rw [← hb2]
          exact hlt.le.trans (h4 c (token_set_ratio q c) rfl)
      · next hnlt =>
        obtain ⟨h1, h2, h3, h4⟩ := ih (some (b₀, bs₀)) m sc hbest h
        refine ⟨h1, h2.imp id (fun h2 => ⟨List.mem_cons.mpr (Or.inr h2.1), h2.2⟩), ?_, h4⟩
        intro d hd
        rcases List.mem_cons.mp hd with rfl | hd'
        · exact (not_lt.mp hnlt).trans (h4 b₀ bs₀ rfl)
        · exact h3 d hd'

/-- Soundness of `extractOne`: a returned match is a choice, its score is
the token-set score of that choice, it meets the cutoff, and no choice
scores higher. -/
theorem extractOne_sound {q : String} {cutoff : ℚ} {choices : List String}
    {m : String} {sc : ℚ}
    (h : extractOne q choices cutoff = some (m, sc)) :
    m ∈ choices ∧ cutoff ≤ sc ∧ sc = token_set_ratio q m ∧
      ∀ c ∈ choices, token_set_ratio q c ≤ sc := by
  obtain ⟨h1, h2, h3, h4⟩ := extractOneAux_sound q cutoff choices none m sc
    (fun b bs hb => Option.noConfusion hb) h
  rcases h2 with h2 | ⟨hm, hsc⟩
  · exact Option.noConfusion h2
  · exact ⟨hm, h1, hsc, h3⟩

/-- **C2** (amended).  `matchByFuzzyTitle` selects for each candidate the
best-scoring reference title and emits one Match Record exactly when the
best score is at or above the threshold; for candidate title
`"the effects of x on y in rats"` against the sole reference title
`"effects of x on y rats"`, at threshold 90 it emits exactly one Match
Record with score 100 ≥ 90 and matched title `"effects of x on y rats"`;
at threshold 100 it emits the *same* single Match Record — not zero —
because the reference's tokens are a subset of the candidate's, and the
token-set similarity of a token subset is 100 despite unequal strings. -/
theorem C2_amended_fuzzy_best_selection :
    (∀ (q : String) (cutoff : ℚ) (choices : List String) (m : String) (sc : ℚ),
      extractOne q choices cutoff = some (m, sc) →
      m ∈ choices ∧ cutoff ≤ sc ∧ sc = token_set_ratio q m ∧
        ∀ c ∈ choices, token_set_ratio q c ≤ sc) ∧
    (match_by_title_fuzzy reviewFuzzyEx rwFuzzyEx "title_norm" 90).map
      (fun d => d.rows.map (fun r => (DataFrame.cellAt r 5, DataFrame.cellAt r 6))) =
      .ok [(some (.str "effects of x on y rats"), some (.num 100))] ∧
    (match_by_title_fuzzy reviewFuzzyEx rwFuzzyEx "title_norm" 100).map
      (fun d => d.rows.map (fun r => (DataFrame.cellAt r 5, DataFrame.cellAt r 6))) =
      .ok [(some (.str "effects of x on y rats"), some (.num 100))] :=
  ⟨fun _ _ _ _ _ h => extractOne_sound h, rfl, rfl⟩

/-- Witness: the selection property at the example titles. -/
theorem C2_amended_witness :
    extractOne "the effects of x on y in rats" ["effects of x on y rats"] 90 =
      some ("effects of x on y rats", 100) ∧
    ("effects of x on y rats" ∈ ["effects of x on y rats"] ∧ (90 : ℚ) ≤ 100 ∧
      (100 : ℚ) =
        token_set_ratio "the effects of x on y in rats" "effects of x on y rats" ∧
      ∀ c ∈ ["effects of x on y rats"],
        token_set_ratio "the effects of x on y in rats" c ≤ 100) :=
  ⟨by decide,
   C2_amended_fuzzy_best_selection.1 "the effects of x on y in rats" 90
     ["effects of x on y rats"] "effects of x on y rats" 100 (by decide)⟩

end RWCheck
